import Mathlib

/-!
Verification of the classification-and-placement engine of the
Automated-File-Organizer repository (`file_organizer.py`,
`config_manager.py`), via a shallow embedding in Lean 4.

Strings are modelled by Lean `String` (a wrapper around `List Char`);
Python's ASCII-relevant `str.lower` is modelled by mapping
`Char.toLower` over the characters.  File contents are modelled as
`List Nat` (the byte sequence); the MD5 digest is an arbitrary function
of the content, passed as a parameter `md5`, because every property at
issue depends only on equality of digests of equal or unequal contents,
never on MD5 internals.  Modification times are rationals (seconds).
The target-directory tree is modelled as an association list from full
path to the file data stored there.
-/

namespace FileOrg

/-- Python `s.lower()` restricted to ASCII, as a map over the characters. -/
def pyLower (s : String) : String := ⟨s.data.map Char.toLower⟩

/-- Python `s.startswith(c)` for a single character `c`. -/
def startsWithChar (c : Char) (s : String) : Bool :=
  match s.data with
  | [] => false
  | a :: _ => a == c

/-- Python `s.lstrip('.')`: drop every leading `'.'` character. -/
def lstripDots (s : String) : String := ⟨s.data.dropWhile (fun c => c == '.')⟩

/-- Python `'.' + s`. -/
def dotPrepend (s : String) : String := ⟨'.' :: s.data⟩

/-- Model of `os.path.join(a, b)` for a relative component `b`. -/
def pathJoin (a b : String) : String := a ++ "/" ++ b

/-- A calendar instant, as much of it as the date-folder formats consult. -/
structure Date where
  year : Nat
  month : Nat
deriving DecidableEq, Repr

/-- Two-digit zero padding, as `strftime` applies to `%m`. -/
def pad2 (n : Nat) : String := if n < 10 then "0" ++ toString n else toString n

/-- Model of CPython `strftime` restricted to the `%Y` and `%m` directives,
the only ones the engine's date-folder formats use. -/
def strftimeAux (d : Date) : List Char → List Char
  | [] => []
  | '%' :: 'Y' :: rest => (toString d.year).data ++ strftimeAux d rest
  | '%' :: 'm' :: rest => (pad2 d.month).data ++ strftimeAux d rest
  | c :: rest => c :: strftimeAux d rest

/-- Format a date with a `strftime` pattern. -/
def strftime (fmt : String) (d : Date) : String := ⟨strftimeAux d fmt.data⟩

/-- The configuration fields the engine consults
(`config_manager._load_default_config` keys `file_types`,
`default_category`, `organize_by_date`, `date_format`). -/
structure Config where
  file_types : List (String × List String)
  default_category : String
  organize_by_date : Bool
  date_format : String
deriving DecidableEq, Repr

/-- The file-information dictionary built by `_get_file_info`:
`name`, `base_name`, `extension` (lower-cased by that function),
`size`, content bytes, `created_time`, `modified_time`. -/
structure FileData where
  name : String
  base_name : String
  extension : String
  size : Nat
  content : List Nat
  created : Date
  mtime : ℚ
deriving DecidableEq, Repr

/-- The target tree: an association list from full path to file data. -/
abbrev FS := List (String × FileData)

/-- Look up the entry stored at path `p`. -/
def fsLookup (fs : FS) (p : String) : Option FileData :=
  (fs.find? (fun e => e.1 == p)).map (fun e => e.2)

/-- Model of `os.path.exists` on the target tree. -/
def fsExists (fs : FS) (p : String) : Bool := (fsLookup fs p).isSome

/-- Iteration of `_get_file_category` over the `file_types` items. -/
def getCategoryAux (ext : String) : List (String × List String) → String → String
  | [], dflt => dflt
  | (cat, exts) :: rest, dflt =>
      if (exts.map lstripDots).contains ext then cat
      else getCategoryAux ext rest dflt

/-- Model of `FileOrganizer._get_file_category`: strip the leading dots
from the extension, return the first category whose extension list
(each entry also dot-stripped) contains it, else the default category. -/
def get_file_category (extension : String) (config : Config) : String :=
  getCategoryAux (lstripDots extension) config.file_types config.default_category

/-- Model of `FileOrganizer._determine_category_dir`: the category
subfolder of the target root, with a `'%Y-%m'`-formatted date subfolder
below it when `organize_by_date` is set.  The format string is the
literal `'%Y-%m'` from the source; the `date_format` configuration key
is not consulted by this function. -/
def determine_category_dir (config : Config) (fi : FileData) (target_dir : String) : String :=
  let category := get_file_category fi.extension config
  if config.organize_by_date then
    pathJoin (pathJoin target_dir category) (strftime "%Y-%m" fi.created)
  else
    pathJoin target_dir category

/-- Spec-side definition for the refinement comparison:
`resolveTargetDirectory` as the spec words it, formatting the date
subfolder with the rule set's configured `dateFormat` string instead of
a fixed pattern.  Stated only to be compared with
`determine_category_dir`. -/
def resolveTargetDirectorySpec (config : Config) (fi : FileData) (target_dir : String) : String :=
  let category := get_file_category fi.extension config
  if config.organize_by_date then
    pathJoin (pathJoin target_dir category) (strftime config.date_format fi.created)
  else
    pathJoin target_dir category

/-- Model of `FileOrganizer._is_same_file` on two stat-able files: sizes
first; whole-content digests for files under 1 MiB; modification-time
proximity (< 1 s) otherwise. -/
def is_same_file (md5 : List Nat → String) (f1 f2 : FileData) : Bool :=
  if f1.size ≠ f2.size then false
  else if f1.size < 1024 * 1024 then md5 f1.content == md5 f2.content
  else |f1.mtime - f2.mtime| < 1

/-- The renaming loop of `_generate_target_path`: probe
`base_name_counter ++ extension` for the first free name, incrementing
`counter`; once `counter` would exceed 1000, fall back to the
timestamp-suffixed name `ts` without an existence check.  The fuel
argument is `1001 - counter`, so the `0` case is never reached from the
initial call; it returns the same fallback for definiteness. -/
def findNewName (fs : FS) (dir base_name extension ts : String) : Nat → Nat → String
  | _, 0 => pathJoin dir (base_name ++ "_" ++ ts ++ extension)
  | counter, fuel + 1 =>
      let new_path := pathJoin dir (base_name ++ "_" ++ toString counter ++ extension)
      if fsExists fs new_path then
        if counter + 1 > 1000 then pathJoin dir (base_name ++ "_" ++ ts ++ extension)
        else findNewName fs dir base_name extension ts (counter + 1) fuel
      else new_path

/-- Model of `FileOrganizer._generate_target_path`: the plain name if it
is free; `FileExistsError` (the `Except.error` case) when the occupant
is judged the same file; otherwise the renaming loop starting at
counter 1.  `ts` models the `datetime.now()` timestamp string. -/
def generate_target_path (md5 : List Nat → String) (fi : FileData)
    (category_dir : String) (fs : FS) (ts : String) : Except String String :=
  let target_path := pathJoin category_dir fi.name
  match fsLookup fs target_path with
  | none => .ok target_path
  | some g =>
      if is_same_file md5 fi g then
        .error ("文件已存在且内容相同: " ++ fi.name)
      else
        .ok (findNewName fs category_dir fi.base_name fi.extension ts 1 1000)

/-- Model of `os.path.relpath(p, base)` for a path lying under `base`. -/
def relpath (p base : String) : String :=
  if (base.data ++ ['/']).isPrefixOf p.data then ⟨p.data.drop (base.data.length + 1)⟩
  else p

/-- Model of `FileOrganizer.organize_file`.  `srcExists` is the
`os.path.exists`/`isfile` check at entry (`False` models a source that
vanished: the function returns `None`).  `moveOk = false` models
`shutil.move` raising, which the function re-raises.  `Except.error`
models an escaping exception, `.ok none` the `None` return, and
`.ok (some rel)` the returned relative path.  The second component is
the target tree after the call. -/
def organize_file (md5 : List Nat → String) (config : Config) (fs : FS)
    (srcExists : Bool) (fi : FileData) (target_dir ts : String) (moveOk : Bool) :
    Except String (Option String) × FS :=
  if srcExists then
    let category_dir := determine_category_dir config fi target_dir
    match generate_target_path md5 fi category_dir fs ts with
    | .error msg => (.error msg, fs)
    | .ok p =>
        if moveOk then (.ok (some (relpath p target_dir)), (p, fi) :: fs)
        else (.error "move failed", fs)
  else (.ok none, fs)

/-- One listing entry of the source directory, with the facts the loop
body of `organize_folder` consults: the entry's name, whether
`os.path.isfile` held at listing time, whether the source still exists
when `organize_file` runs, its file data, and whether the move succeeds. -/
structure Item where
  name : String
  isFile : Bool
  srcExists : Bool
  fd : FileData
  moveOk : Bool
deriving DecidableEq, Repr

/-- The batch counters returned by `organize_folder`. -/
structure BatchResult where
  total : Nat
  success : Nat
  failed : Nat
  skipped : Nat
deriving DecidableEq, Repr

/-- Python `item.startswith('.') or item.startswith('~')`. -/
def hiddenName (s : String) : Bool := startsWithChar '.' s || startsWithChar '~' s

/-- The loop body of `FileOrganizer.organize_folder` for one listing
entry: directories are only logged; files count into `total`, then
hidden/system names into `skipped`; otherwise `organize_file` decides
`success` (a truthy returned path), `skipped` (a `None` return) or
`failed` (an escaping exception, caught here). -/
def folder_step (md5 : List Nat → String) (config : Config) (target_dir ts : String)
    (acc : BatchResult × FS) (it : Item) : BatchResult × FS :=
  let r := acc.1
  let fs := acc.2
  if it.isFile then
    let r1 : BatchResult := { r with total := r.total + 1 }
    if hiddenName it.name then
      ({ r1 with skipped := r1.skipped + 1 }, fs)
    else
      match organize_file md5 config fs it.srcExists it.fd target_dir ts it.moveOk with
      | (.ok (some _), fs1) => ({ r1 with success := r1.success + 1 }, fs1)
      | (.ok none, fs1) => ({ r1 with skipped := r1.skipped + 1 }, fs1)
      | (.error _, fs1) => ({ r1 with failed := r1.failed + 1 }, fs1)
  else acc

/-- Folding the loop body from an arbitrary accumulator. -/
def organize_folder_from (md5 : List Nat → String) (config : Config)
    (target_dir ts : String) (acc : BatchResult × FS) (items : List Item) :
    BatchResult × FS :=
  items.foldl (folder_step md5 config target_dir ts) acc

/-- Model of `FileOrganizer.organize_folder` over a listing of the
source directory, starting from zero counters and the given target
tree. -/
def organize_folder (md5 : List Nat → String) (config : Config) (items : List Item)
    (target_dir ts : String) (fs : FS) : BatchResult × FS :=
  organize_folder_from md5 config target_dir ts (⟨0, 0, 0, 0⟩, fs) items

/-- Python `'.' + ext` normalization followed by `.lower()`, as
`add_file_type_rule` applies to each extension. -/
def normalizeExt (ext : String) : String :=
  pyLower (if startsWithChar '.' ext then ext else dotPrepend ext)

/-- Python ordered-dict assignment `d[k] = v`: replace in place if the
key is present, append otherwise. -/
def setFT : List (String × List String) → String → List String → List (String × List String)
  | [], cat, v => [(cat, v)]
  | (k, w) :: rest, cat, v =>
      if k == cat then (cat, v) :: rest else (k, w) :: setFT rest cat v

/-- Model of `ConfigManager.add_file_type_rule`: store, under the
category, every extension prefixed with a dot when missing and
lower-cased. -/
def add_file_type_rule (config : Config) (category : String) (extensions : List String) : Config :=
  { config with file_types := setFT config.file_types category (extensions.map normalizeExt) }

/-- Association-list lookup in the `file_types` mapping. -/
def lookupFT (ft : List (String × List String)) (cat : String) : Option (List String) :=
  (ft.find? (fun e => e.1 == cat)).map (fun e => e.2)

end FileOrg


namespace FileOrg

/-- A concrete digest function for evaluating the model on closed
inputs: distinct printed contents give distinct digests. -/
def md5c : List Nat → String := fun l => toString l

/-- A concrete rule set used in closed instances. -/
def cfg0 : Config := ⟨[("Docs", [".txt"])], "Other", false, "%Y-%m"⟩

/-- A concrete small text file. -/
def fdA : FileData := ⟨"a.txt", "a", ".txt", 3, [97, 98, 99], ⟨2024, 1⟩, 0⟩

/-- A concrete source image file `a.jpg`. -/
def fdJpg : FileData := ⟨"a.jpg", "a", ".jpg", 4, [1, 2, 3, 4], ⟨2024, 1⟩, 0⟩

/-- A concrete file with the same name as `fdJpg` but different content
and size. -/
def fdJpgOther : FileData := ⟨"a.jpg", "a", ".jpg", 3, [9, 9, 9], ⟨2024, 1⟩, 5⟩

/-- A target tree whose `Images` folder holds only `a.jpg`, with content
different from `fdJpg`. -/
def fsB : FS := [("T/Images/a.jpg", fdJpgOther)]

theorem findNewName_succ (fs : FS) (dir b e ts : String) (c n : Nat) :
    findNewName fs dir b e ts c (n + 1) =
      if fsExists fs (pathJoin dir (b ++ "_" ++ toString c ++ e)) then
        (if c + 1 > 1000 then pathJoin dir (b ++ "_" ++ ts ++ e)
         else findNewName fs dir b e ts (c + 1) n)
      else pathJoin dir (b ++ "_" ++ toString c ++ e) := rfl

theorem generate_target_path_none (md5 : List Nat → String) (fi : FileData)
    (dir : String) (fs : FS) (ts : String)
    (hL : fsLookup fs (pathJoin dir fi.name) = none) :
    generate_target_path md5 fi dir fs ts = .ok (pathJoin dir fi.name) := by
  simp only [generate_target_path]
  rw [hL]

theorem generate_target_path_some (md5 : List Nat → String) (fi : FileData)
    (dir : String) (fs : FS) (ts : String) (g : FileData)
    (hL : fsLookup fs (pathJoin dir fi.name) = some g) :
    generate_target_path md5 fi dir fs ts =
      if is_same_file md5 fi g then .error ("文件已存在且内容相同: " ++ fi.name)
      else .ok (findNewName fs dir fi.base_name fi.extension ts 1 1000) := by
  simp only [generate_target_path]
  rw [hL]

theorem findNewName_free_or_fallback (fs : FS) (dir b e ts : String) :
    ∀ fuel counter, fsExists fs (findNewName fs dir b e ts counter fuel) = false ∨
      findNewName fs dir b e ts counter fuel = pathJoin dir (b ++ "_" ++ ts ++ e) := by
  intro fuel
  induction fuel with
  | zero => intro c; exact Or.inr rfl
  | succ n ih =>
    intro c
    rw [findNewName_succ]
    by_cases h : fsExists fs (pathJoin dir (b ++ "_" ++ toString c ++ e)) = true
    · rw [if_pos h]
      by_cases h2 : c + 1 > 1000
      · rw [if_pos h2]
        exact Or.inr rfl
      · rw [if_neg h2]
        exact ih (c + 1)
    · rw [if_neg h]
      exact Or.inl (Bool.not_eq_true _ ▸ h)

/-- C1: every path returned by the collision-resolution step of
`_generate_target_path` either refers to no existing entry, or the call
is refused (raises `FileExistsError`) because the occupant is judged
the same file; the sole accepted-without-check result is the
timestamp-fallback name. -/
theorem no_clobber_generate_target_path (md5 : List Nat → String) (fi : FileData)
    (dir : String) (fs : FS) (ts : String) :
    match generate_target_path md5 fi dir fs ts with
    | .error _ => ∃ g, fsLookup fs (pathJoin dir fi.name) = some g ∧ is_same_file md5 fi g = true
    | .ok p => fsExists fs p = false ∨
        p = pathJoin dir (fi.base_name ++ "_" ++ ts ++ fi.extension) := by
  cases hL : fsLookup fs (pathJoin dir fi.name) with
  | none =>
    rw [generate_target_path_none md5 fi dir fs ts hL]
    exact Or.inl (by simp [fsExists, hL])
  | some g =>
    rw [generate_target_path_some md5 fi dir fs ts g hL]
    by_cases hS : is_same_file md5 fi g = true
    · rw [if_pos hS]
      exact ⟨g, rfl, hS⟩
    · rw [if_neg hS]
      exact findNewName_free_or_fallback fs dir fi.base_name fi.extension ts 1000 1

/-- Closed instance of the no-clobber theorem at a concrete tree. -/
theorem no_clobber_generate_target_path_witness :
    match generate_target_path md5c fdJpg "T/Images" fsB "ts0" with
    | .error _ => ∃ g, fsLookup fsB (pathJoin "T/Images" fdJpg.name) = some g ∧
        is_same_file md5c fdJpg g = true
    | .ok p => fsExists fsB p = false ∨
        p = pathJoin "T/Images" (fdJpg.base_name ++ "_" ++ "ts0" ++ fdJpg.extension) :=
  no_clobber_generate_target_path md5c fdJpg "T/Images" fsB "ts0"

end FileOrg

namespace FileOrg

theorem findNewName_first_free (fs : FS) (dir b e ts : String) :
    ∀ fuel counter, 1 ≤ counter → counter + fuel = 1001 →
      (∃ k, counter ≤ k ∧ k ≤ 1000 ∧
        findNewName fs dir b e ts counter fuel = pathJoin dir (b ++ "_" ++ toString k ++ e) ∧
        fsExists fs (pathJoin dir (b ++ "_" ++ toString k ++ e)) = false ∧
        ∀ j, counter ≤ j → j < k →
          fsExists fs (pathJoin dir (b ++ "_" ++ toString j ++ e)) = true) ∨
      ((∀ j, counter ≤ j → j ≤ 1000 →
          fsExists fs (pathJoin dir (b ++ "_" ++ toString j ++ e)) = true) ∧
        findNewName fs dir b e ts counter fuel = pathJoin dir (b ++ "_" ++ ts ++ e)) := by
  intro fuel
  induction fuel with
  | zero =>
    intro c h1 h2
    refine Or.inr ⟨?_, rfl⟩
    intro j hj1 hj2
    omega
  | succ n ih =>
    intro c h1 h2
    rw [findNewName_succ]
    by_cases h : fsExists fs (pathJoin dir (b ++ "_" ++ toString c ++ e)) = true
    · rw [if_pos h]
      by_cases h2' : c + 1 > 1000
      · rw [if_pos h2']
        refine Or.inr ⟨?_, rfl⟩
        intro j hj1 hj2
        have hjc : j = c := by omega
        rw [hjc]
        exact h
      · rw [if_neg h2']
        rcases ih (c + 1) (by omega) (by omega) with
          ⟨k, hk1, hk2, heq, hfree, hprev⟩ | ⟨hall, heq⟩
        · refine Or.inl ⟨k, by omega, hk2, heq, hfree, ?_⟩
          intro j hj1 hj2
          rcases Nat.eq_or_lt_of_le hj1 with hjc | hjc
          · rw [← hjc]
            exact h
          · exact hprev j (by omega) hj2
        · refine Or.inr ⟨?_, heq⟩
          intro j hj1 hj2
          rcases Nat.eq_or_lt_of_le hj1 with hjc | hjc
          · rw [← hjc]
            exact h
          · exact hall j (by omega) hj2
    · rw [if_neg h]
      refine Or.inl ⟨c, Nat.le_refl c, by omega, rfl, Bool.not_eq_true _ ▸ h, ?_⟩
      intro j hj1 hj2
      omega

/-- C5: when the occupant of the plain target name is judged a
different file, `_generate_target_path` returns the first free name
among `base_1`, …, `base_1000` (every earlier probe being occupied),
and when all 1000 probes are occupied it returns the timestamp-suffixed
fallback name. -/
theorem rename_appends_counter (md5 : List Nat → String) (fi : FileData)
    (dir : String) (fs : FS) (ts : String) (g : FileData)
    (hg : fsLookup fs (pathJoin dir fi.name) = some g)
    (hdiff : is_same_file md5 fi g = false) :
    ∃ r, generate_target_path md5 fi dir fs ts = .ok r ∧
      ((∃ k, 1 ≤ k ∧ k ≤ 1000 ∧
        r = pathJoin dir (fi.base_name ++ "_" ++ toString k ++ fi.extension) ∧
        fsExists fs (pathJoin dir (fi.base_name ++ "_" ++ toString k ++ fi.extension)) = false ∧
        ∀ j, 1 ≤ j → j < k →
          fsExists fs (pathJoin dir (fi.base_name ++ "_" ++ toString j ++ fi.extension)) = true) ∨
      ((∀ j, 1 ≤ j → j ≤ 1000 →
          fsExists fs (pathJoin dir (fi.base_name ++ "_" ++ toString j ++ fi.extension)) = true) ∧
        r = pathJoin dir (fi.base_name ++ "_" ++ ts ++ fi.extension))) := by
  refine ⟨findNewName fs dir fi.base_name fi.extension ts 1 1000, ?_, ?_⟩
  · rw [generate_target_path_some md5 fi dir fs ts g hg, if_neg]
    rw [hdiff]
    exact Bool.false_ne_true
  · exact findNewName_first_free fs dir fi.base_name fi.extension ts 1000 1
      (Nat.le_refl 1) rfl

/-- Closed instance of the renaming theorem: a directory holding only
`a.jpg` with content different from the source `a.jpg` yields the
result path `a_1.jpg` in that directory. -/
theorem rename_appends_counter_witness :
    fsLookup fsB (pathJoin "T/Images" fdJpg.name) = some fdJpgOther ∧
    is_same_file md5c fdJpg fdJpgOther = false ∧
    generate_target_path md5c fdJpg "T/Images" fsB "ts0" = .ok "T/Images/a_1.jpg" ∧
    (∃ r, generate_target_path md5c fdJpg "T/Images" fsB "ts0" = .ok r ∧
      ((∃ k, 1 ≤ k ∧ k ≤ 1000 ∧
        r = pathJoin "T/Images" (fdJpg.base_name ++ "_" ++ toString k ++ fdJpg.extension) ∧
        fsExists fsB (pathJoin "T/Images"
          (fdJpg.base_name ++ "_" ++ toString k ++ fdJpg.extension)) = false ∧
        ∀ j, 1 ≤ j → j < k →
          fsExists fsB (pathJoin "T/Images"
            (fdJpg.base_name ++ "_" ++ toString j ++ fdJpg.extension)) = true) ∨
      ((∀ j, 1 ≤ j → j ≤ 1000 →
          fsExists fsB (pathJoin "T/Images"
            (fdJpg.base_name ++ "_" ++ toString j ++ fdJpg.extension)) = true) ∧
        r = pathJoin "T/Images" (fdJpg.base_name ++ "_" ++ "ts0" ++ fdJpg.extension)))) :=
  ⟨by decide, by decide, by rfl,
    rename_appends_counter md5c fdJpg "T/Images" fsB "ts0" fdJpgOther (by decide) (by decide)⟩

end FileOrg

namespace FileOrg

/-- A concrete file at exactly the 1 MiB threshold. -/
def fdBig : FileData := ⟨"big.bin", "big", ".bin", 1048576, [], ⟨2024, 1⟩, 0⟩

/-- A concrete file of the same size as `fdBig` whose modification time
is half a second later. -/
def fdBigLater : FileData := ⟨"big.bin", "big", ".bin", 1048576, [7], ⟨2024, 1⟩, 1 / 2⟩

/-- C4: same-file detection compares sizes first, whole-content digests
for matching sizes under 1 MiB, and modification-time proximity
(under one second) for matching sizes at or above 1 MiB. -/
theorem same_file_detection (md5 : List Nat → String) (f1 f2 : FileData) :
    (f1.size ≠ f2.size → is_same_file md5 f1 f2 = false) ∧
    (f1.size = f2.size → f1.size < 1024 * 1024 →
      (is_same_file md5 f1 f2 = true ↔ md5 f1.content = md5 f2.content)) ∧
    (f1.size = f2.size → 1024 * 1024 ≤ f1.size →
      (is_same_file md5 f1 f2 = true ↔ |f1.mtime - f2.mtime| < 1)) := by
  refine ⟨?_, ?_, ?_⟩
  · intro hne
    unfold is_same_file
    rw [if_pos hne]
  · intro hsz hlt
    unfold is_same_file
    rw [if_neg (by simp [hsz]), if_pos hlt]
    exact beq_iff_eq
  · intro hsz hge
    unfold is_same_file
    rw [if_neg (by simp [hsz]), if_neg (by omega)]
    exact decide_eq_true_iff

/-- Closed instances of the same-file-detection theorem: differing
sizes, identical small files, and large files with close timestamps. -/
theorem same_file_detection_witness :
    is_same_file md5c fdA fdJpg = false ∧
    is_same_file md5c fdA fdA = true ∧
    is_same_file md5c fdBig fdBigLater = true :=
  ⟨(same_file_detection md5c fdA fdJpg).1 (by decide),
   ((same_file_detection md5c fdA fdA).2.1 rfl (by decide)).mpr rfl,
   ((same_file_detection md5c fdBig fdBigLater).2.2 rfl (by decide)).mpr (by rw [abs_lt]; constructor <;> norm_num [fdBig, fdBigLater])⟩

/-- Number of listing entries that are files (the entries `organize_folder`
counts into `total`). -/
def countFiles (items : List Item) : Nat := (items.filter (fun it => it.isFile)).length

/-- The `success + failed + skipped` part of a batch result. -/
def sum3 (r : BatchResult) : Nat := r.success + r.failed + r.skipped

theorem folder_step_dir (md5 : List Nat → String) (config : Config) (target ts : String)
    (acc : BatchResult × FS) (it : Item) (hf : it.isFile = false) :
    folder_step md5 config target ts acc it = acc := by
  unfold folder_step
  rw [hf]
  simp

theorem folder_step_hidden (md5 : List Nat → String) (config : Config) (target ts : String)
    (acc : BatchResult × FS) (it : Item) (hf : it.isFile = true)
    (hh : hiddenName it.name = true) :
    folder_step md5 config target ts acc it =
      ({ acc.1 with total := acc.1.total + 1, skipped := acc.1.skipped + 1 }, acc.2) := by
  unfold folder_step
  rw [hf, hh]
  simp

theorem folder_step_vanished (md5 : List Nat → String) (config : Config) (target ts : String)
    (acc : BatchResult × FS) (it : Item) (hf : it.isFile = true)
    (hh : hiddenName it.name = false) (hs : it.srcExists = false) :
    folder_step md5 config target ts acc it =
      ({ acc.1 with total := acc.1.total + 1, skipped := acc.1.skipped + 1 }, acc.2) := by
  unfold folder_step
  rw [hf, hh]
  simp only [if_true, Bool.false_eq_true, if_false]
  unfold organize_file
  rw [hs]
  simp

theorem folder_step_moveFail (md5 : List Nat → String) (config : Config) (target ts : String)
    (acc : BatchResult × FS) (it : Item) (hf : it.isFile = true)
    (hh : hiddenName it.name = false) (hs : it.srcExists = true) (hm : it.moveOk = false) :
    folder_step md5 config target ts acc it =
      ({ acc.1 with total := acc.1.total + 1, failed := acc.1.failed + 1 }, acc.2) := by
  unfold folder_step
  rw [hf, hh]
  simp only [if_true, Bool.false_eq_true, if_false]
  unfold organize_file
  rw [hs, hm]
  simp only [if_true]
  cases generate_target_path md5 it.fd (determine_category_dir config it.fd target) acc.2 ts with
  | error msg => simp
  | ok p => simp

theorem folder_step_total (md5 : List Nat → String) (config : Config) (target ts : String)
    (acc : BatchResult × FS) (it : Item) :
    (folder_step md5 config target ts acc it).1.total =
      acc.1.total + (if it.isFile then 1 else 0) := by
  unfold folder_step
  by_cases hf : it.isFile = true
  · rw [hf]
    simp only [if_true]
    by_cases hh : hiddenName it.name = true
    · rw [hh]; simp
    · rw [Bool.not_eq_true] at hh
      rw [hh]
      simp only [Bool.false_eq_true, if_false]
      rcases organize_file md5 config acc.2 it.srcExists it.fd target ts it.moveOk with ⟨res, fs1⟩
      cases res with
      | error msg => simp
      | ok o => cases o <;> simp
  · rw [Bool.not_eq_true] at hf
    rw [hf]
    simp

theorem folder_step_sum3 (md5 : List Nat → String) (config : Config) (target ts : String)
    (acc : BatchResult × FS) (it : Item) :
    sum3 (folder_step md5 config target ts acc it).1 + acc.1.total =
      (folder_step md5 config target ts acc it).1.total + sum3 acc.1 := by
  unfold folder_step
  by_cases hf : it.isFile = true
  · rw [hf]
    simp only [if_true]
    by_cases hh : hiddenName it.name = true
    · rw [hh]; simp [sum3]; omega
    · rw [Bool.not_eq_true] at hh
      rw [hh]
      simp only [Bool.false_eq_true, if_false]
      rcases organize_file md5 config acc.2 it.srcExists it.fd target ts it.moveOk with ⟨res, fs1⟩
      cases res with
      | error msg => simp [sum3]; omega
      | ok o => cases o <;> (simp [sum3]; omega)
  · rw [Bool.not_eq_true] at hf
    rw [hf]
    simp
    omega

theorem organize_folder_from_total (md5 : List Nat → String) (config : Config)
    (target ts : String) :
    ∀ (items : List Item) (acc : BatchResult × FS),
      (organize_folder_from md5 config target ts acc items).1.total =
        acc.1.total + countFiles items := by
  intro items
  induction items with
  | nil => intro acc; simp [organize_folder_from, countFiles]
  | cons it rest ih =>
    intro acc
    have hstep : organize_folder_from md5 config target ts acc (it :: rest) =
        organize_folder_from md5 config target ts (folder_step md5 config target ts acc it) rest := rfl
    rw [hstep, ih, folder_step_total]
    by_cases hf : it.isFile = true
    · simp [countFiles, hf]
      omega
    · rw [Bool.not_eq_true] at hf
      simp [countFiles, hf]

theorem organize_folder_from_sum3 (md5 : List Nat → String) (config : Config)
    (target ts : String) :
    ∀ (items : List Item) (acc : BatchResult × FS),
      sum3 (organize_folder_from md5 config target ts acc items).1 + acc.1.total =
        (organize_folder_from md5 config target ts acc items).1.total + sum3 acc.1 := by
  intro items
  induction items with
  | nil => intro acc; simp [organize_folder_from]; omega
  | cons it rest ih =>
    intro acc
    have hstep : organize_folder_from md5 config target ts acc (it :: rest) =
        organize_folder_from md5 config target ts (folder_step md5 config target ts acc it) rest := rfl
    rw [hstep]
    have h1 := ih (folder_step md5 config target ts acc it)
    have h2 := folder_step_sum3 md5 config target ts acc it
    omega

theorem organize_folder_sum3_eq_total (md5 : List Nat → String) (config : Config)
    (items : List Item) (target ts : String) (fs : FS) :
    sum3 (organize_folder md5 config items target ts fs).1 =
      (organize_folder md5 config items target ts fs).1.total := by
  have h := organize_folder_from_sum3 md5 config target ts items (⟨0, 0, 0, 0⟩, fs)
  simpa [organize_folder, sum3] using h

end FileOrg

namespace FileOrg

/-- The target tree already holding a byte-identical copy of `fdA`
under its category folder. -/
def fs0 : FS := [("T/Docs/a.txt", fdA)]

/-- Listing entry for the source copy of `fdA`. -/
def itemA : Item := ⟨"a.txt", true, true, fdA, true⟩

/-- A hidden file `.env` (Python `splitext` gives base `.env`, empty
extension). -/
def fdEnv : FileData := ⟨".env", ".env", "", 2, [1, 2], ⟨2024, 1⟩, 0⟩

/-- Listing entry for the hidden file `.env`. -/
def itemEnv : Item := ⟨".env", true, true, fdEnv, true⟩

/-- Listing entry for the subdirectory `Sub` (not a file). -/
def itemSub : Item := ⟨"Sub", false, true, fdA, true⟩

/-- Listing entry for a file that vanished before `organize_file` ran. -/
def itemGone : Item := ⟨"gone.txt", true, false, fdA, true⟩

/-- A concrete file `b.txt`. -/
def fdBtxt : FileData := ⟨"b.txt", "b", ".txt", 1, [5], ⟨2024, 1⟩, 0⟩

/-- Listing entry for a file whose move raises an I/O error. -/
def itemBadMove : Item := ⟨"b.txt", true, true, fdBtxt, false⟩

/-- A concrete file `c.txt`. -/
def fdC : FileData := ⟨"c.txt", "c", ".txt", 2, [4, 5], ⟨2024, 2⟩, 0⟩

/-- Listing entry for the source copy of `fdC`. -/
def itemC : Item := ⟨"c.txt", true, true, fdC, true⟩

/-- C3: evaluating the batch on a source file whose byte-identical copy
already sits at the target shows the code counting it as `failed`
(the `FileExistsError` raised by `_generate_target_path` is re-raised
by `organize_file` and caught by the batch's failure handler), not as
`skipped`; no renamed copy is produced (the tree is unchanged). -/
theorem duplicate_counted_failed :
    organize_folder md5c cfg0 [itemA] "T" "20240101_000000" fs0 = (⟨1, 0, 1, 0⟩, fs0) ∧
    (organize_folder md5c cfg0 [itemA] "T" "20240101_000000" fs0).1.skipped = 0 := by
  constructor
  · decide
  · decide

/-- C7 counterexample: a listing holding the hidden file `.env` and the
subdirectory `Sub` produces `total = 1` — the hidden file IS counted
into `total` (and into `skipped`), contradicting the claim that it is
excluded from `total`. -/
theorem hidden_counted_in_total_counterexample :
    (organize_folder md5c cfg0 [itemEnv, itemSub] "T" "ts" []).1 = ⟨1, 0, 0, 1⟩ ∧
    ¬ (organize_folder md5c cfg0 [itemEnv, itemSub] "T" "ts" []).1.total = 0 := by
  constructor
  · decide
  · decide

/-- C7 amended: `total` counts exactly the file entries of the listing —
so a subdirectory and everything under it is excluded (the enumeration
is non-recursive and directory entries are only logged) — while a
hidden file increments both `total` and `skipped`. -/
theorem batch_total_counts_hidden (md5 : List Nat → String) (config : Config)
    (target ts : String) :
    (∀ (items : List Item) (fs : FS),
      (organize_folder md5 config items target ts fs).1.total = countFiles items) ∧
    (∀ (acc : BatchResult × FS) (it : Item), it.isFile = true → hiddenName it.name = true →
      folder_step md5 config target ts acc it =
        ({ acc.1 with total := acc.1.total + 1, skipped := acc.1.skipped + 1 }, acc.2)) := by
  constructor
  · intro items fs
    have h := organize_folder_from_total md5 config target ts items (⟨0, 0, 0, 0⟩, fs)
    simpa [organize_folder] using h
  · intro acc it hf hh
    exact folder_step_hidden md5 config target ts acc it hf hh

/-- Closed instance of the amended C7 theorem on the `.env`/`Sub` listing. -/
theorem batch_total_counts_hidden_witness :
    (organize_folder md5c cfg0 [itemEnv, itemSub] "T" "ts" []).1.total =
      countFiles [itemEnv, itemSub] ∧
    folder_step md5c cfg0 "T" "ts" (⟨0, 0, 0, 0⟩, []) itemEnv = (⟨1, 0, 0, 1⟩, []) :=
  ⟨(batch_total_counts_hidden md5c cfg0 "T" "ts").1 [itemEnv, itemSub] [],
   (batch_total_counts_hidden md5c cfg0 "T" "ts").2 (⟨0, 0, 0, 0⟩, []) itemEnv (by decide) (by decide)⟩

/-- C8 counterexample: a source file that vanished before processing is
counted as `skipped` (the `None` return of `organize_file`), not as
`failed` as the claim states. -/
theorem vanished_counted_skipped_counterexample :
    (organize_folder md5c cfg0 [itemGone] "T" "ts" []).1 = ⟨1, 0, 0, 1⟩ ∧
    ¬ (organize_folder md5c cfg0 [itemGone] "T" "ts" []).1.failed = 1 := by
  constructor
  · decide
  · decide

/-- C8 amended: a source missing at the entry check of `organize_file`
yields the `None` return and increments `skipped`; an error raised
during processing itself (here: the move failing) increments `failed`. -/
theorem vanished_skips_move_error_fails (md5 : List Nat → String) (config : Config)
    (target ts : String) (acc : BatchResult × FS) (it : Item)
    (hf : it.isFile = true) (hh : hiddenName it.name = false) :
    (it.srcExists = false →
      folder_step md5 config target ts acc it =
        ({ acc.1 with total := acc.1.total + 1, skipped := acc.1.skipped + 1 }, acc.2)) ∧
    (it.srcExists = true → it.moveOk = false →
      folder_step md5 config target ts acc it =
        ({ acc.1 with total := acc.1.total + 1, failed := acc.1.failed + 1 }, acc.2)) :=
  ⟨fun hs => folder_step_vanished md5 config target ts acc it hf hh hs,
   fun hs hm => folder_step_moveFail md5 config target ts acc it hf hh hs hm⟩

/-- Closed instances of the amended C8 theorem: the vanished file counts
as skipped, the failing move as failed. -/
theorem vanished_skips_move_error_fails_witness :
    folder_step md5c cfg0 "T" "ts" (⟨0, 0, 0, 0⟩, []) itemGone = (⟨1, 0, 0, 1⟩, []) ∧
    folder_step md5c cfg0 "T" "ts" (⟨0, 0, 0, 0⟩, []) itemBadMove = (⟨1, 0, 1, 0⟩, []) :=
  ⟨(vanished_skips_move_error_fails md5c cfg0 "T" "ts" (⟨0, 0, 0, 0⟩, []) itemGone
      (by decide) (by decide)).1 (by decide),
   (vanished_skips_move_error_fails md5c cfg0 "T" "ts" (⟨0, 0, 0, 0⟩, []) itemBadMove
      (by decide) (by decide)).2 (by decide) (by decide)⟩

/-- C9: a file whose processing raises an error does not abort the
batch: the batch over `xs ++ [it] ++ ys` equals continuing over `ys`
from the state after the failing step, `total` still counts every file
entry of the whole listing, the three outcome counters add up to
`total`, and the erroring file itself lands in `failed`. -/
theorem batch_continue_on_error (md5 : List Nat → String) (config : Config)
    (target ts : String) (xs ys : List Item) (it : Item) (fs : FS)
    (hf : it.isFile = true) (hh : hiddenName it.name = false)
    (hs : it.srcExists = true) (hm : it.moveOk = false) :
    organize_folder md5 config (xs ++ it :: ys) target ts fs =
      organize_folder_from md5 config target ts
        (folder_step md5 config target ts (organize_folder md5 config xs target ts fs) it) ys ∧
    (organize_folder md5 config (xs ++ it :: ys) target ts fs).1.total
      = countFiles xs + 1 + countFiles ys ∧
    sum3 (organize_folder md5 config (xs ++ it :: ys) target ts fs).1
      = (organize_folder md5 config (xs ++ it :: ys) target ts fs).1.total ∧
    (folder_step md5 config target ts (organize_folder md5 config xs target ts fs) it).1.failed
      = (organize_folder md5 config xs target ts fs).1.failed + 1 := by
  refine ⟨?_, ?_, ?_, ?_⟩
  · simp only [organize_folder, organize_folder_from, List.foldl_append, List.foldl_cons]
  · have h := organize_folder_from_total md5 config target ts (xs ++ it :: ys) (⟨0, 0, 0, 0⟩, fs)
    simp only [organize_folder] at h ⊢
    rw [h]
    simp [countFiles, List.filter_append, hf]
    omega
  · exact organize_folder_sum3_eq_total md5 config (xs ++ it :: ys) target ts fs
  · rw [folder_step_moveFail md5 config target ts
      (organize_folder md5 config xs target ts fs) it hf hh hs hm]

/-- Closed instance of the continue-on-error theorem on a three-file
listing whose middle file fails to move. -/
theorem batch_continue_on_error_witness :
    organize_folder md5c cfg0 ([itemA] ++ itemBadMove :: [itemC]) "T" "ts" [] =
      organize_folder_from md5c cfg0 "T" "ts"
        (folder_step md5c cfg0 "T" "ts" (organize_folder md5c cfg0 [itemA] "T" "ts" []) itemBadMove)
        [itemC] ∧
    (organize_folder md5c cfg0 ([itemA] ++ itemBadMove :: [itemC]) "T" "ts" []).1.total
      = countFiles [itemA] + 1 + countFiles [itemC] ∧
    sum3 (organize_folder md5c cfg0 ([itemA] ++ itemBadMove :: [itemC]) "T" "ts" []).1
      = (organize_folder md5c cfg0 ([itemA] ++ itemBadMove :: [itemC]) "T" "ts" []).1.total ∧
    (folder_step md5c cfg0 "T" "ts" (organize_folder md5c cfg0 [itemA] "T" "ts" []) itemBadMove).1.failed
      = (organize_folder md5c cfg0 [itemA] "T" "ts" []).1.failed + 1 :=
  batch_continue_on_error md5c cfg0 "T" "ts" [itemA] [itemC] itemBadMove []
    (by decide) (by decide) (by decide) (by decide)

end FileOrg

namespace FileOrg

/-- A rule set with date grouping on and a configured date format of
`%Y` (year only), different from the default `%Y-%m`. -/
def cfgY : Config := ⟨[], "Other", true, "%Y"⟩

/-- C6 counterexample: with `date_format` configured as `%Y`, the code
still produces a `%Y-%m` date folder — the resolved directory differs
from the spec's `targetRoot / category / formatDate(createdTime,
ruleSet.dateFormat)`. -/
theorem date_format_ignored_counterexample :
    determine_category_dir cfgY fdA "T" = "T/Other/2024-01" ∧
    resolveTargetDirectorySpec cfgY fdA "T" = "T/Other/2024" ∧
    ¬ determine_category_dir cfgY fdA "T" = resolveTargetDirectorySpec cfgY fdA "T" := by
  refine ⟨?_, ?_, ?_⟩
  · decide
  · decide
  · decide

/-- C6 amended: the resolved target directory is
`targetRoot / category / createdTime formatted with the fixed pattern
"%Y-%m"` when date grouping is on (the configured `date_format` is
never consulted), and `targetRoot / category` otherwise: the code
equals the spec's `resolveTargetDirectory` with `dateFormat` replaced
by the literal `%Y-%m`. -/
theorem target_directory_fixed_format (config : Config) (fi : FileData) (target : String) :
    determine_category_dir config fi target =
      resolveTargetDirectorySpec { config with date_format := "%Y-%m" } fi target := by
  cases config
  rfl

end FileOrg

namespace FileOrg

/-- Membership of an extension in a rule's extension list as the claim
reads it: compared after stripping the leading dots AND lower-casing
both sides. -/
def memberLC (ext : String) (exts : List String) : Prop :=
  pyLower (lstripDots ext) ∈ exts.map (fun e => pyLower (lstripDots e))

instance (ext : String) (exts : List String) : Decidable (memberLC ext exts) := by
  unfold memberLC
  infer_instance

/-- A rule set whose stored extension list carries an upper-case entry
(reachable through the configuration file, which is merged verbatim). -/
def cfgUpper : Config := ⟨[("Images", [".JPG"])], "Other", false, "%Y-%m"⟩

theorem containsStr_iff (l : List String) (a : String) : l.contains a = true ↔ a ∈ l := by
  unfold List.contains
  exact List.elem_iff

theorem getCategoryAux_cons (ext : String) (cat : String) (exts : List String)
    (rest : List (String × List String)) (dflt : String) :
    getCategoryAux ext ((cat, exts) :: rest) dflt =
      if (exts.map lstripDots).contains ext then cat else getCategoryAux ext rest dflt := rfl

theorem memberLC_of_contains (ext : String) (exts : List String)
    (h : (exts.map lstripDots).contains (lstripDots ext) = true) : memberLC ext exts := by
  rw [containsStr_iff] at h
  rcases List.mem_map.mp h with ⟨e, he, heq⟩
  exact List.mem_map.mpr ⟨e, he, congrArg pyLower heq⟩

theorem contains_of_memberLC (ext : String) (exts : List String)
    (hstored : ∀ e ∈ exts, pyLower (lstripDots e) = lstripDots e)
    (hext : pyLower (lstripDots ext) = lstripDots ext)
    (h : memberLC ext exts) : (exts.map lstripDots).contains (lstripDots ext) = true := by
  rw [containsStr_iff]
  rcases List.mem_map.mp h with ⟨e, he, heq⟩
  refine List.mem_map.mpr ⟨e, he, ?_⟩
  calc lstripDots e = pyLower (lstripDots e) := (hstored e he).symm
    _ = pyLower (lstripDots ext) := heq
    _ = lstripDots ext := hext

theorem getCategoryAux_default (ext : String) :
    ∀ (l : List (String × List String)) (dflt : String),
      (∀ p ∈ l, ¬ memberLC ext p.2) →
      getCategoryAux (lstripDots ext) l dflt = dflt := by
  intro l
  induction l with
  | nil => intro dflt _; rfl
  | cons p rest ih =>
    intro dflt h
    obtain ⟨cat, exts⟩ := p
    rw [getCategoryAux_cons]
    have hp : ¬ memberLC ext exts := h (cat, exts) (List.mem_cons_self _ _)
    have hc : ¬ ((exts.map lstripDots).contains (lstripDots ext) = true) := by
      intro hcc
      exact hp (memberLC_of_contains ext exts hcc)
    rw [if_neg hc]
    exact ih dflt (fun q hq => h q (List.mem_cons_of_mem _ hq))

theorem getCategoryAux_unique (ext : String) :
    ∀ (l : List (String × List String)) (dflt cat : String) (exts : List String),
      (∀ p ∈ l, ∀ e ∈ p.2, pyLower (lstripDots e) = lstripDots e) →
      pyLower (lstripDots ext) = lstripDots ext →
      (cat, exts) ∈ l → memberLC ext exts →
      (∀ p ∈ l, memberLC ext p.2 → p = (cat, exts)) →
      getCategoryAux (lstripDots ext) l dflt = cat := by
  intro l
  induction l with
  | nil => intro dflt cat exts _ _ hmem; exact absurd hmem (List.not_mem_nil _)
  | cons p rest ih =>
    intro dflt cat exts hstored hext hmem hlc huniq
    obtain ⟨c0, e0⟩ := p
    rw [getCategoryAux_cons]
    by_cases hc : (e0.map lstripDots).contains (lstripDots ext) = true
    · rw [if_pos hc]
      have h0 : memberLC ext e0 := memberLC_of_contains ext e0 hc
      have := huniq (c0, e0) (List.mem_cons_self _ _) h0
      exact congrArg Prod.fst this
    · rw [if_neg hc]
      have hrest : (cat, exts) ∈ rest := by
        rcases List.mem_cons.mp hmem with hhd | htl
        · exfalso
          apply hc
          apply contains_of_memberLC ext e0 _ hext
          · have : e0 = exts := congrArg Prod.snd hhd.symm
            rw [this]
            exact hlc
          · intro e he
            exact hstored (c0, e0) (List.mem_cons_self _ _) e he
        · exact htl
      exact ih dflt cat exts
        (fun q hq => hstored q (List.mem_cons_of_mem _ hq)) hext hrest hlc
        (fun q hq => huniq q (List.mem_cons_of_mem _ hq))

/-- C2 counterexample: the extension `.jpg` is, after lower-casing and
dot-stripping, present in exactly one category of `cfgUpper` (whose
stored list is `[".JPG"]`), yet `_get_file_category` returns the
default category: the stored rule extensions are compared without
lower-casing. -/
theorem classify_lowercasing_counterexample :
    memberLC ".jpg" [".JPG"] ∧
    (∀ p ∈ cfgUpper.file_types, memberLC ".jpg" p.2 → p = ("Images", [".JPG"])) ∧
    get_file_category ".jpg" cfgUpper = "Other" ∧
    get_file_category ".jpg" cfgUpper ≠ "Images" := by
  refine ⟨?_, ?_, ?_, ?_⟩
  · decide
  · decide
  · decide
  · decide

/-- C2 amended: an extension not present (modulo lower-casing and
dot-stripping) in any category's list classifies to the default
category — unconditionally, for every rule set; and an extension
present in exactly one category's list classifies to that category
PROVIDED the stored extensions are already lower-case (as the default
configuration and `add_file_type_rule` guarantee) and the probed
extension is lower-case (as `_get_file_info` guarantees); without that
proviso the stored side is compared verbatim. -/
theorem classify_totality_amended (ext : String) (config : Config) :
    ((∀ p ∈ config.file_types, ¬ memberLC ext p.2) →
      get_file_category ext config = config.default_category) ∧
    ((∀ p ∈ config.file_types, ∀ e ∈ p.2, pyLower (lstripDots e) = lstripDots e) →
      pyLower (lstripDots ext) = lstripDots ext →
      ∀ cat exts, (cat, exts) ∈ config.file_types → memberLC ext exts →
        (∀ p ∈ config.file_types, memberLC ext p.2 → p = (cat, exts)) →
        get_file_category ext config = cat) := by
  constructor
  · intro h
    exact getCategoryAux_default ext config.file_types config.default_category h
  · intro hstored hext cat exts hmem hlc huniq
    exact getCategoryAux_unique ext config.file_types config.default_category cat exts
      hstored hext hmem hlc huniq

/-- Closed instances of the amended classification theorem: an extension
unmatched even in an upper-case-stored rule set falls to the default
category, and a uniquely matched lower-case extension classifies to its
category. -/
theorem classify_totality_amended_witness :
    get_file_category ".xyz" cfgUpper = "Other" ∧ get_file_category ".txt" cfg0 = "Docs" :=
  ⟨(classify_totality_amended ".xyz" cfgUpper).1 (by decide),
   (classify_totality_amended ".txt" cfg0).2 (by decide) (by decide) "Docs" [".txt"]
     (by decide) (by decide) (by decide)⟩

end FileOrg

namespace FileOrg

theorem toLower_not_upper (c : Char) : (Char.toLower c).isUpper = false := by
  simp only [Char.toLower]
  split
  · next h =>
    obtain ⟨h1, h2⟩ := h
    set n := Char.toNat c with hn
    interval_cases n <;> decide
  · next h =>
    by_cases hu : c.isUpper = true
    · exfalso
      simp only [Char.isUpper, ge_iff_le, Bool.and_eq_true, decide_eq_true_eq] at hu
      obtain ⟨hu1, hu2⟩ := hu
      have h1 : 65 ≤ c.toNat := UInt32.le_toNat_of_le (by decide) hu1
      have h2 : c.toNat ≤ 90 := UInt32.toNat_le_of_le (by decide) hu2
      exact h ⟨h1, h2⟩
    · exact Bool.not_eq_true _ ▸ hu

theorem lookupFT_setFT : ∀ (ft : List (String × List String)) (cat : String) (v : List String),
    lookupFT (setFT ft cat v) cat = some v := by
  intro ft
  induction ft with
  | nil =>
    intro cat v
    simp [setFT, lookupFT, List.find?]
  | cons p rest ih =>
    intro cat v
    obtain ⟨k, w⟩ := p
    by_cases hk : (k == cat) = true
    · simp [setFT, hk, lookupFT, List.find?]
    · rw [Bool.not_eq_true] at hk
      simp only [setFT, hk, Bool.false_eq_true, if_false]
      have hrec := ih cat v
      simp only [lookupFT, List.find?] at hrec ⊢
      rw [hk]
      exact hrec

theorem startsWithChar_normalizeExt (x : String) : startsWithChar '.' (normalizeExt x) = true := by
  unfold normalizeExt
  by_cases h : startsWithChar '.' x = true
  · rw [if_pos h]
    unfold startsWithChar at h
    unfold startsWithChar pyLower
    cases hd : x.data with
    | nil => rw [hd] at h; simp at h
    | cons a t =>
      rw [hd] at h
      have ha : a = '.' := eq_of_beq h
      subst ha
      rfl
  · rw [if_neg h]
    rfl

theorem all_not_upper_normalizeExt (x : String) :
    (normalizeExt x).data.all (fun c => !c.isUpper) = true := by
  unfold normalizeExt pyLower
  show (((if startsWithChar '.' x then x else dotPrepend x).data.map Char.toLower).all
    (fun c => !c.isUpper)) = true
  rw [List.all_eq_true]
  intro c hc
  rcases List.mem_map.mp hc with ⟨a, _, rfl⟩
  simp [toLower_not_upper]

/-- C10: after `add_file_type_rule`, every extension stored for the
category begins with a dot and contains no upper-case ASCII letter
(it is entirely lower-cased), however the caller spelled it. -/
theorem add_rule_normalizes_extensions (config : Config) (category : String)
    (extensions : List String) :
    ∀ l, lookupFT (add_file_type_rule config category extensions).file_types category = some l →
      ∀ e ∈ l, startsWithChar '.' e = true ∧ e.data.all (fun c => !c.isUpper) = true := by
  intro l hl e he
  obtain ⟨ft, dc, od, df⟩ := config
  simp only [add_file_type_rule] at hl
  rw [lookupFT_setFT] at hl
  have hleq : extensions.map normalizeExt = l := Option.some.inj hl
  rw [← hleq] at he
  rcases List.mem_map.mp he with ⟨x, _, rfl⟩
  exact ⟨startsWithChar_normalizeExt x, all_not_upper_normalizeExt x⟩

/-- Closed instance of the normalization theorem on mixed-case,
mixed-dot input. -/
theorem add_rule_normalizes_extensions_witness :
    lookupFT (add_file_type_rule cfg0 "Images" ["JPG", ".PnG", "gif"]).file_types "Images"
      = some [".jpg", ".png", ".gif"] ∧
    ∀ e ∈ [".jpg", ".png", ".gif"],
      startsWithChar '.' e = true ∧ e.data.all (fun c => !c.isUpper) = true :=
  ⟨by decide,
   add_rule_normalizes_extensions cfg0 "Images" ["JPG", ".PnG", "gif"]
     [".jpg", ".png", ".gif"] (by decide)⟩

end FileOrg
